import Mathlib

/-
Verification of the ClarityApp conflict-resolution workspace.
The definitions below are a shallow embedding of the Zustand store and the
pure helpers in src/index.tsx: the data model (Mention, Conflict,
ResolutionDraft, ManualEdit), the store actions, the diff engine and the
ResolvedView "next conflict" logic. JavaScript objects used as string maps
(the `edits` record) are modelled as association lists with JS spread
semantics (replace-in-place when the key exists, append otherwise).
-/

namespace ClarityApp

inductive ViewState
| login
| upload
| analyzing
| dashboard
deriving DecidableEq

inductive ConflictType
| TEMPORAL
| CONTRADICTION
| INTRA_DOC
deriving DecidableEq

inductive ResolutionStatus
| OPEN
| RESOLVED
deriving DecidableEq

inductive WorkspaceMode
| view
| resolve
| preview
| verifying
| resolved
| all_cleared
deriving DecidableEq

inductive ManualAction
| UPDATE
| CLARIFY
| ERROR
| KEEP
deriving DecidableEq

inductive SourceType
| Main
| Appendix
| Policy
| RFP
deriving DecidableEq

inductive FileStatus
| pending
| uploading
| complete
| error
deriving DecidableEq

structure Mention where
  id : String
  docId : String
  docName : String
  page : Nat
  sectionLabel : String
  text : String
  date : Option String := none
  sourceType : Option SourceType := none
deriving DecidableEq

structure Conflict where
  id : String
  type : ConflictType
  title : String
  description : String
  mentions : List Mention
  status : ResolutionStatus
  aiRecommendation : Option String := none
  resolvedAt : Option String := none
deriving DecidableEq

structure ManualEdit where
  text : String
  action : ManualAction
  isDirty : Bool
deriving DecidableEq

structure ResolutionDraft where
  conflictId : String
  selectedTemporalId : Option String := none
  keepHistory : Option Bool := none
  selectedCorrectId : Option String := none
  reasoning : Option String := none
  edits : List (String × ManualEdit)
deriving DecidableEq

structure UploadFile where
  name : String
  size : String
  status : FileStatus
deriving DecidableEq

structure StoreState where
  view : ViewState
  currentUser : Option String
  files : List UploadFile
  conflicts : List Conflict
  selectedConflictId : Option String
  workspaceMode : WorkspaceMode
  resolutionDraft : Option ResolutionDraft
deriving DecidableEq

/-- A patch for `updateDraft`, modelling TypeScript `Partial<ResolutionDraft>`:
a field of the patch that is `none` is absent from the partial object, while
`some v` overwrites the draft field with `v` (spread semantics). -/
structure ResolutionDraftPatch where
  conflictId : Option String := none
  selectedTemporalId : Option (Option String) := none
  keepHistory : Option (Option Bool) := none
  selectedCorrectId : Option (Option String) := none
  reasoning : Option (Option String) := none
  edits : Option (List (String × ManualEdit)) := none
deriving DecidableEq

/-- JS object update `{ ...edits, [k]: v }` on a record used as a string map:
replaces the value in place when the key is present, appends otherwise. -/
def setKey (edits : List (String × ManualEdit)) (k : String) (v : ManualEdit) :
    List (String × ManualEdit) :=
  if edits.any (fun p => decide (p.1 = k)) then
    edits.map (fun p => if p.1 = k then (k, v) else p)
  else
    edits ++ [(k, v)]

/-- JS record lookup `edits[k]`. -/
def lookupKey (edits : List (String × ManualEdit)) (k : String) : Option ManualEdit :=
  (edits.find? (fun p => decide (p.1 = k))).map (fun p => p.2)

-- --- Diff engine (simpleDiff, src/index.tsx lines 127-143) ---

/-- Result of the diff rendering: the "No changes detected." span, or the
rendering of the whole original as one deleted span next to the whole
revised text as one inserted span. -/
inductive DiffResult
| noChange
| replaced (oldText newText : String)
deriving DecidableEq

/-- The source splits on the regex /\s+/ (runs of whitespace). -/
def splitWords (s : String) : List String :=
  (s.split Char.isWhitespace).filter (fun w => w ≠ "")

/-- Shallow embedding of `simpleDiff`. The word lists are computed but never
used in the result, exactly as in the source. -/
def simpleDiff (oldText newText : String) : DiffResult :=
  let oldWords := splitWords oldText
  let newWords := splitWords newText
  if oldText = newText then DiffResult.noChange
  else
    let _ := oldWords
    let _ := newWords
    DiffResult.replaced oldText newText

-- --- Mock data (MOCK_CONFLICTS, src/index.tsx lines 147-186) ---

def mockConflict1 : Conflict :=
  { id := "C-001", type := .TEMPORAL,
    title := "Security Certification Evolution",
    description := "Multiple certification standards detected across RFP responses from different years.",
    status := .OPEN,
    aiRecommendation := some "Mark HITRUST (2024) as current. Tag older versions as Historical.",
    mentions :=
      [ { id := "m1", docId := "d1", docName := "2022_Healthcare_RFP.pdf", page := 12,
          sectionLabel := "3. Security", text := "We are SOC 2 Type 1 certified",
          date := some "June 15, 2022" },
        { id := "m2", docId := "d2", docName := "2023_FinServ_RFP.docx", page := 8,
          sectionLabel := "2. Compliance", text := "We are SOC 2 Type 2 certified",
          date := some "March 20, 2023" },
        { id := "m3", docId := "d3", docName := "2024_Enterprise_RFP.pdf", page := 15,
          sectionLabel := "4. Certifications", text := "We are HITRUST certified",
          date := some "Jan 10, 2024" } ] }

def mockConflict2 : Conflict :=
  { id := "C-002", type := .CONTRADICTION,
    title := "HIPAA Compliance Status",
    description := "Direct contradiction between RFP response and internal policy document regarding BAA readiness.",
    status := .OPEN,
    aiRecommendation := some "Verify correct status with Compliance Officer.",
    mentions :=
      [ { id := "m4", docId := "d3", docName := "2024_Enterprise_RFP.pdf", page := 22,
          sectionLabel := "5.1 Privacy", text := "We are HIPAA compliant and BAA-ready" },
        { id := "m5", docId := "d4", docName := "2024_Product_Specs.pdf", page := 4,
          sectionLabel := "Roadmap", text := "HIPAA compliance certification pending Q2 2024" } ] }

def mockConflict3 : Conflict :=
  { id := "C-003", type := .INTRA_DOC,
    title := "Service Pricing Inconsistency",
    description := "Conflicting pricing figures detected within the same Master Services Agreement.",
    status := .OPEN,
    aiRecommendation := some "Edit document to ensure consistent pricing value.",
    mentions :=
      [ { id := "m6", docId := "d5", docName := "Enterprise_Services_Agreement.pdf", page := 12,
          sectionLabel := "4. Fees", text := "Monthly fee: $50,000 per month" },
        { id := "m7", docId := "d5", docName := "Enterprise_Services_Agreement.pdf", page := 34,
          sectionLabel := "9. Premium Tier", text := "Customer will pay $45,000 monthly" },
        { id := "m8", docId := "d5", docName := "Enterprise_Services_Agreement.pdf", page := 67,
          sectionLabel := "Appendix A", text := "Total monthly recurring: $52,000" } ] }

def MOCK_CONFLICTS : List Conflict := [mockConflict1, mockConflict2, mockConflict3]

-- --- Store actions (useStore, src/index.tsx lines 190-322) ---

def login (s : StoreState) (username : String) : StoreState :=
  { s with currentUser := some username, view := .upload, files := [], conflicts := [],
           selectedConflictId := none, workspaceMode := .view, resolutionDraft := none }

def logout (s : StoreState) : StoreState :=
  { s with currentUser := none, view := .login, files := [], conflicts := [],
           selectedConflictId := none, workspaceMode := .view, resolutionDraft := none }

def setView (s : StoreState) (v : ViewState) : StoreState := { s with view := v }

def setFiles (s : StoreState) (files : List UploadFile) : StoreState := { s with files := files }

def selectConflict (s : StoreState) (id : String) : StoreState :=
  { s with selectedConflictId := some id, workspaceMode := .view, resolutionDraft := none }

/-- `loadMockData` sets the selection to `MOCK_CONFLICTS[0].id` ("C-001"). -/
def loadMockData (s : StoreState) : StoreState :=
  { s with conflicts := MOCK_CONFLICTS,
           selectedConflictId := MOCK_CONFLICTS.head?.map Conflict.id }

/-- `startResolution` returns early when `selectedConflictId` is falsy in JS,
i.e. null or the empty string. -/
def startResolution (s : StoreState) : StoreState :=
  match s.selectedConflictId with
  | none => s
  | some cid =>
    if cid = "" then s
    else { s with workspaceMode := .resolve,
                  resolutionDraft := some { conflictId := cid, edits := [] } }

def cancelResolution (s : StoreState) : StoreState :=
  { s with workspaceMode := .view, resolutionDraft := none }

def goToPreview (s : StoreState) : StoreState := { s with workspaceMode := .preview }

def returnToEdit (s : StoreState) : StoreState := { s with workspaceMode := .resolve }

def submitResolution (s : StoreState) : StoreState := { s with workspaceMode := .verifying }

/-- `finalizeResolution`; the call `new Date().toISOString()` is modelled by
the explicit `now` argument. -/
def finalizeResolution (now : String) (s : StoreState) : StoreState :=
  { s with workspaceMode := .resolved,
           conflicts := s.conflicts.map (fun c =>
             if some c.id = s.selectedConflictId then
               { c with status := .RESOLVED, resolvedAt := some now }
             else c) }

def setAllCleared (s : StoreState) : StoreState :=
  { s with workspaceMode := .all_cleared, selectedConflictId := none }

def initManualDraft (s : StoreState) (conflict : Conflict) : StoreState :=
  { s with workspaceMode := .resolve,
           resolutionDraft := some
             { conflictId := conflict.id,
               edits := conflict.mentions.foldl
                 (fun acc m => setKey acc m.id { text := m.text, action := .UPDATE, isDirty := false })
                 [] } }

def applyPatch (d : ResolutionDraft) (u : ResolutionDraftPatch) : ResolutionDraft :=
  { conflictId := u.conflictId.getD d.conflictId,
    selectedTemporalId := u.selectedTemporalId.getD d.selectedTemporalId,
    keepHistory := u.keepHistory.getD d.keepHistory,
    selectedCorrectId := u.selectedCorrectId.getD d.selectedCorrectId,
    reasoning := u.reasoning.getD d.reasoning,
    edits := u.edits.getD d.edits }

def updateDraft (s : StoreState) (u : ResolutionDraftPatch) : StoreState :=
  match s.resolutionDraft with
  | none => s
  | some d => { s with resolutionDraft := some (applyPatch d u) }

/-- The lookup `state.conflicts.find(c => c.id === state.selectedConflictId)
?.mentions.find(m => m.id === mentionId)` inside `updateManualEdit`. -/
def findOriginalMention (s : StoreState) (mentionId : String) : Option Mention :=
  (s.conflicts.find? (fun c => decide (some c.id = s.selectedConflictId))).bind
    (fun c => c.mentions.find? (fun m => decide (m.id = mentionId)))

def updateManualEdit (s : StoreState) (mentionId text : String) (action : ManualAction) :
    StoreState :=
  match s.resolutionDraft with
  | none => s
  | some draft =>
    let originalMention := findOriginalMention s mentionId
    let isDirty : Bool :=
      match originalMention with
      | some m => decide (text ≠ m.text)
      | none => true
    { s with resolutionDraft := some { draft with
        edits := setKey draft.edits mentionId { text := text, action := action, isDirty := isDirty } } }

-- --- ResolvedView advance logic (src/index.tsx lines 1104-1114) ---

/-- `conflicts.find(c => c.status === 'OPEN' && c.id !== conflict.id)`. -/
def nextConflict (conflicts : List Conflict) (cur : Conflict) : Option Conflict :=
  conflicts.find? (fun c => decide (c.status = .OPEN ∧ c.id ≠ cur.id))

/-- `handleNext` in `ResolvedView`. -/
def handleNext (s : StoreState) (cur : Conflict) : StoreState :=
  match nextConflict s.conflicts cur with
  | some n => selectConflict s n.id
  | none => setAllCleared s

-- --- Initial store state and the operation alphabet ---

def initialState : StoreState :=
  { view := .login, currentUser := none, files := [], conflicts := [],
    selectedConflictId := none, workspaceMode := .view, resolutionDraft := none }

inductive Op
| login (username : String)
| logout
| setView (v : ViewState)
| setFiles (files : List UploadFile)
| selectConflict (id : String)
| loadMockData
| startResolution
| cancelResolution
| goToPreview
| returnToEdit
| submitResolution
| finalizeResolution (now : String)
| setAllCleared
| initManualDraft (conflict : Conflict)
| updateDraft (u : ResolutionDraftPatch)
| updateManualEdit (mentionId text : String) (action : ManualAction)
deriving DecidableEq

def applyOp (s : StoreState) : Op → StoreState
| .login u => login s u
| .logout => logout s
| .setView v => setView s v
| .setFiles fs => setFiles s fs
| .selectConflict id => selectConflict s id
| .loadMockData => loadMockData s
| .startResolution => startResolution s
| .cancelResolution => cancelResolution s
| .goToPreview => goToPreview s
| .returnToEdit => returnToEdit s
| .submitResolution => submitResolution s
| .finalizeResolution now => finalizeResolution now s
| .setAllCleared => setAllCleared s
| .initManualDraft c => initManualDraft s c
| .updateDraft u => updateDraft s u
| .updateManualEdit mid text a => updateManualEdit s mid text a

-- --- Concrete scenario states, built only from the store actions ---

/-- The dashboard state right after login, upload and analysis: the mock
conflicts are loaded and C-001 is selected. -/
def demoState : StoreState :=
  setView (loadMockData (login initialState "Dr. A. Vance")) ViewState.dashboard

/-- A CONTRADICTION resolution in progress on C-002 with a 2-character
reasoning. -/
def contradictionDraftState : StoreState :=
  updateDraft
    (updateDraft (startResolution (selectConflict demoState "C-002"))
      { selectedCorrectId := some (some "m4") })
    { reasoning := some (some "ok") }

/-- A TEMPORAL resolution on C-001 submitted for verification. -/
def verifyingState : StoreState :=
  submitResolution
    (goToPreview
      (updateDraft (startResolution (selectConflict demoState "C-001"))
        { selectedTemporalId := some (some "m3") }))

/-- An INTRA_DOC manual draft on C-003, freshly initialised. -/
def manualDraftState : StoreState :=
  initManualDraft (selectConflict demoState "C-003") mockConflict3

def longText : String := String.mk (List.replicate 1001 'a')

/-- C-001 as stamped by `finalizeResolution` at time `now`. -/
def resolvedMockConflict1 (now : String) : Conflict :=
  { mockConflict1 with
      status := ResolutionStatus.RESOLVED,
      resolvedAt := some now }

-- --- Helper lemmas ---

theorem find?_append_cons {α : Type} (p : α → Bool) (l₁ l₂ : List α) (a : α)
    (h1 : ∀ x ∈ l₁, p x = false) (h2 : p a = true) :
    List.find? p (l₁ ++ a :: l₂) = some a := by
  rw [List.find?_append]
  have hnone : List.find? p l₁ = none :=
    List.find?_eq_none.2 (fun x hx => by simp [h1 x hx])
  rw [hnone, List.find?_cons_of_pos _ h2]
  rfl

theorem map_if_id_of_none {l : List Conflict} {sel : Option String} {now : String}
    (h : ∀ c ∈ l, some c.id ≠ sel) :
    l.map (fun c => if some c.id = sel then
        { c with status := ResolutionStatus.RESOLVED, resolvedAt := some now } else c) = l := by
  have := List.map_congr_left (l := l)
    (f := fun c => if some c.id = sel then
        { c with status := ResolutionStatus.RESOLVED, resolvedAt := some now } else c)
    (g := fun c => c)
    (fun c hc => if_neg (h c hc))
  simpa using this

theorem mem_setKey {edits : List (String × ManualEdit)} {k : String} {v : ManualEdit}
    {p : String × ManualEdit} (hp : p ∈ setKey edits k v) :
    p = (k, v) ∨ (p ∈ edits ∧ p.1 ≠ k) := by
  unfold setKey at hp
  by_cases h : edits.any (fun q => decide (q.1 = k)) = true
  · rw [if_pos h] at hp
    rcases List.mem_map.1 hp with ⟨q, hq, hfq⟩
    by_cases hqk : q.1 = k
    · left; rw [← hfq, if_pos hqk]
    · right; rw [← hfq, if_neg hqk]; exact ⟨hq, hqk⟩
  · rw [if_neg h] at hp
    rcases List.mem_append.1 hp with h1 | h2
    · right
      refine ⟨h1, fun hk => ?_⟩
      have hall := List.any_eq_false.1 (Bool.of_not_eq_true h)
      exact hall p h1 (by simp [hk])
    · left; simpa using h2

theorem find?_map_replace (t : List (String × ManualEdit)) (k : String) (v : ManualEdit)
    (h : t.any (fun q => decide (q.1 = k)) = true) :
    List.find? (fun p => decide (p.1 = k))
      (t.map (fun p => if p.1 = k then (k, v) else p)) = some (k, v) := by
  induction t with
  | nil => simp at h
  | cons q t ih =>
    by_cases hqk : q.1 = k
    · rw [List.map_cons, if_pos hqk, List.find?_cons_of_pos _ (by simp)]
    · rw [List.map_cons, if_neg hqk, List.find?_cons_of_neg _ (by simpa using hqk)]
      apply ih
      rcases List.any_eq_true.1 h with ⟨x, hx, hpx⟩
      rcases List.mem_cons.1 hx with rfl | hxt
      · exact absurd (of_decide_eq_true hpx) hqk
      · exact List.any_eq_true.2 ⟨x, hxt, hpx⟩

theorem lookupKey_setKey (edits : List (String × ManualEdit)) (k : String) (v : ManualEdit) :
    lookupKey (setKey edits k v) k = some v := by
  unfold setKey lookupKey
  by_cases h : edits.any (fun q => decide (q.1 = k)) = true
  · rw [if_pos h, find?_map_replace edits k v h]
    rfl
  · rw [if_neg h]
    have hall : ∀ x ∈ edits, (fun q : String × ManualEdit => decide (q.1 = k)) x = false := by
      intro x hx
      simpa using List.any_eq_false.1 (Bool.of_not_eq_true h) x hx
    rw [find?_append_cons _ edits [] (k, v) hall (by simp)]
    rfl

-- --- Dirty-flag consistency infrastructure (claim C4) ---

/-- The edits of the active draft, empty when no draft is active. -/
def draftEdits (s : StoreState) : List (String × ManualEdit) :=
  match s.resolutionDraft with
  | none => []
  | some d => d.edits

/-- The dirty flag `updateManualEdit` computes for a stored edit: text
differs from the registry original, and `true` when the mention id is not
found in the selected conflict. -/
def editDirtySpec (s : StoreState) (p : String × ManualEdit) : Bool :=
  match findOriginalMention s p.1 with
  | some m => decide (p.2.text ≠ m.text)
  | none => true

/-- Every stored ManualEdit's `isDirty` agrees with `editDirtySpec`. -/
def editsConsistent (s : StoreState) : Prop :=
  ∀ p ∈ draftEdits s, p.2.isDirty = editDirtySpec s p

instance (s : StoreState) : Decidable (editsConsistent s) := by
  unfold editsConsistent; infer_instance

/-- The operations the manual-editing flow is made of. -/
inductive MOp
| init (conflict : Conflict)
| upd (mentionId text : String) (action : ManualAction)
deriving DecidableEq

def applyMOp (s : StoreState) : MOp → StoreState
| .init c => initManualDraft s c
| .upd mid text a => updateManualEdit s mid text a

/-- Every `init` in a sequence of manual operations targets `sel`. -/
def initTargets (sel : Conflict) : MOp → Bool
| .init c => decide (c = sel)
| .upd _ _ _ => true

theorem applyMOp_conflicts (s : StoreState) (op : MOp) :
    (applyMOp s op).conflicts = s.conflicts ∧
    (applyMOp s op).selectedConflictId = s.selectedConflictId := by
  cases op with
  | init c => exact ⟨rfl, rfl⟩
  | upd mid text a =>
    cases h : s.resolutionDraft <;> simp [applyMOp, updateManualEdit, h]

theorem findOriginalMention_congr {s t : StoreState} (hc : t.conflicts = s.conflicts)
    (hs : t.selectedConflictId = s.selectedConflictId) (mid : String) :
    findOriginalMention t mid = findOriginalMention s mid := by
  unfold findOriginalMention
  rw [hc, hs]

theorem find?_mem_of_nodup_ids (l : List Mention) (m : Mention) (hm : m ∈ l)
    (hnd : (l.map Mention.id).Nodup) :
    l.find? (fun x => decide (x.id = m.id)) = some m := by
  induction l with
  | nil => cases hm
  | cons a t ih =>
    rcases List.mem_cons.1 hm with rfl | hmt
    · exact List.find?_cons_of_pos _ (by simp)
    · have hane : ¬(a.id = m.id) := by
        have hnotin : a.id ∉ t.map Mention.id := (List.nodup_cons.1 (by simpa using hnd)).1
        intro he
        exact hnotin (he ▸ List.mem_map_of_mem Mention.id hmt)
      rw [List.find?_cons_of_neg _ (by simpa using hane)]
      exact ih hmt (List.nodup_cons.1 (by simpa using hnd)).2

theorem mem_foldl_setKey (ms : List Mention) (acc : List (String × ManualEdit))
    (p : String × ManualEdit)
    (hp : p ∈ ms.foldl
      (fun a m => setKey a m.id { text := m.text, action := .UPDATE, isDirty := false }) acc) :
    p ∈ acc ∨ ∃ m ∈ ms, p = (m.id, { text := m.text, action := .UPDATE, isDirty := false }) := by
  induction ms generalizing acc with
  | nil => exact Or.inl hp
  | cons m t ih =>
    rcases ih _ hp with hacc | ⟨m', hm', hpm⟩
    · rcases mem_setKey hacc with rfl | ⟨ha, _⟩
      · right; exact ⟨m, List.mem_cons_self _ _, rfl⟩
      · left; exact ha
    · right; exact ⟨m', List.mem_cons_of_mem _ hm', hpm⟩

theorem editsConsistent_updateManualEdit (s : StoreState) (mid text : String) (a : ManualAction)
    (h : editsConsistent s) : editsConsistent (updateManualEdit s mid text a) := by
  cases hd : s.resolutionDraft with
  | none =>
    intro p hp
    simp only [updateManualEdit, hd] at hp ⊢
    exact h p hp
  | some d =>
    have hcongr : ∀ x, findOriginalMention (updateManualEdit s mid text a) x
        = findOriginalMention s x := by
      intro x
      exact findOriginalMention_congr (by simp [updateManualEdit, hd])
        (by simp [updateManualEdit, hd]) x
    intro p hp
    have hde : draftEdits (updateManualEdit s mid text a)
        = setKey d.edits mid
            { text := text, action := a,
              isDirty := match findOriginalMention s mid with
                         | some m => decide (text ≠ m.text)
                         | none => true } := by
      simp [draftEdits, updateManualEdit, hd]
    rw [hde] at hp
    rcases mem_setKey hp with rfl | ⟨hpe, _⟩
    · show (match findOriginalMention s mid with
            | some m => decide (text ≠ m.text)
            | none => true)
          = editDirtySpec (updateManualEdit s mid text a) (mid, _)
      unfold editDirtySpec
      rw [hcongr]
    · have hps : p ∈ draftEdits s := by
        simp [draftEdits, hd]
        exact hpe
      have := h p hps
      unfold editDirtySpec at this ⊢
      rw [hcongr]
      exact this

theorem editsConsistent_initManualDraft (s : StoreState) (sel : Conflict)
    (hsel : s.conflicts.find? (fun c => decide (some c.id = s.selectedConflictId)) = some sel)
    (hnd : (sel.mentions.map Mention.id).Nodup) :
    editsConsistent (initManualDraft s sel) := by
  intro p hp
  have hp' : p ∈ sel.mentions.foldl
      (fun a m => setKey a m.id { text := m.text, action := .UPDATE, isDirty := false }) [] := hp
  rcases mem_foldl_setKey _ _ _ hp' with hnil | ⟨m, hm, rfl⟩
  · cases hnil
  · have hfind : findOriginalMention (initManualDraft s sel) m.id = some m := by
      unfold findOriginalMention
      have hc : (initManualDraft s sel).conflicts = s.conflicts := rfl
      have hs : (initManualDraft s sel).selectedConflictId = s.selectedConflictId := rfl
      rw [hc, hs, hsel]
      simpa using find?_mem_of_nodup_ids sel.mentions m hm hnd
    show false = editDirtySpec (initManualDraft s sel) (m.id, _)
    unfold editDirtySpec
    rw [hfind]
    simp

theorem editsConsistent_foldl (ops : List MOp) :
    ∀ (s : StoreState) (sel : Conflict),
      s.conflicts.find? (fun c => decide (some c.id = s.selectedConflictId)) = some sel →
      (sel.mentions.map Mention.id).Nodup →
      (∀ op ∈ ops, initTargets sel op = true) →
      editsConsistent s →
      editsConsistent (ops.foldl applyMOp s) := by
  induction ops with
  | nil => intro s sel _ _ _ hcons; exact hcons
  | cons op t ih =>
    intro s sel hsel hnd hops hcons
    have hframe := applyMOp_conflicts s op
    apply ih (applyMOp s op) sel
    · rw [hframe.1, hframe.2]; exact hsel
    · exact hnd
    · intro o ho; exact hops o (List.mem_cons_of_mem _ ho)
    · cases op with
      | init c =>
        have hc : c = sel :=
          of_decide_eq_true (by simpa [initTargets] using hops _ (List.mem_cons_self _ _))
        subst hc
        exact editsConsistent_initManualDraft s c hsel hnd
      | upd mid text a => exact editsConsistent_updateManualEdit s mid text a hcons

-- --- resolvedAt/status invariant infrastructure (claim C5) ---

/-- `resolvedAt` is present exactly on RESOLVED conflicts. -/
def resolvedAtConsistent (l : List Conflict) : Prop :=
  ∀ c ∈ l, (c.resolvedAt.isSome ↔ c.status = ResolutionStatus.RESOLVED)

instance (l : List Conflict) : Decidable (resolvedAtConsistent l) := by
  unfold resolvedAtConsistent; infer_instance

theorem resolvedAtConsistent_applyOp (s : StoreState) (op : Op)
    (h : resolvedAtConsistent s.conflicts) :
    resolvedAtConsistent (applyOp s op).conflicts := by
  cases op with
  | login u => intro c hc; cases hc
  | logout => intro c hc; cases hc
  | setView v => exact h
  | setFiles fs => exact h
  | selectConflict id => exact h
  | loadMockData =>
    have hmock : resolvedAtConsistent MOCK_CONFLICTS := by decide
    exact hmock
  | startResolution =>
    cases hs : s.selectedConflictId with
    | none => simpa [applyOp, startResolution, hs] using h
    | some cid =>
      by_cases hc : cid = "" <;> simpa [applyOp, startResolution, hs, hc] using h
  | cancelResolution => exact h
  | goToPreview => exact h
  | returnToEdit => exact h
  | submitResolution => exact h
  | finalizeResolution now =>
    intro c hc
    rcases List.mem_map.1 hc with ⟨c₀, hc₀, rfl⟩
    by_cases hid : some c₀.id = s.selectedConflictId
    · simp [hid]
    · simpa [hid] using h c₀ hc₀
  | setAllCleared => exact h
  | initManualDraft c => exact h
  | updateDraft u =>
    cases hd : s.resolutionDraft <;> simpa [applyOp, updateDraft, hd] using h
  | updateManualEdit mid text a =>
    cases hd : s.resolutionDraft <;> simpa [applyOp, updateManualEdit, hd] using h

theorem resolvedAtConsistent_foldl (ops : List Op) :
    ∀ s : StoreState, resolvedAtConsistent s.conflicts →
      resolvedAtConsistent ((ops.foldl applyOp s).conflicts) := by
  induction ops with
  | nil => intro s h; exact h
  | cons op t ih => intro s h; exact ih _ (resolvedAtConsistent_applyOp s op h)

-- --- Claim theorems ---

/-- Claim C1, counterexample: in resolve mode on the CONTRADICTION conflict
C-002 with `reasoning` = "ok" (2 characters, below the 20-character minimum),
`goToPreview` nevertheless transitions the workspace to preview — the claimed
validation gate does not reject. -/
theorem goToPreview_ungated_cex :
    ((contradictionDraftState.conflicts.find?
        (fun c => decide (some c.id = contradictionDraftState.selectedConflictId))).map
      Conflict.type) = some ConflictType.CONTRADICTION ∧
    contradictionDraftState.workspaceMode = WorkspaceMode.resolve ∧
    (contradictionDraftState.resolutionDraft.bind (fun d => d.reasoning)) = some "ok" ∧
    "ok".length < 20 ∧
    (goToPreview contradictionDraftState).workspaceMode = WorkspaceMode.preview := by
  decide

/-- Claim C1 (amended): `goToPreview` unconditionally sets the workspace mode
to preview, for every state and draft — no validation gate is enforced on the
resolve → preview transition; everything else is left unchanged. -/
theorem goToPreview_unconditional (s : StoreState) :
    (goToPreview s).workspaceMode = WorkspaceMode.preview ∧
    (goToPreview s).conflicts = s.conflicts ∧
    (goToPreview s).selectedConflictId = s.selectedConflictId ∧
    (goToPreview s).resolutionDraft = s.resolutionDraft :=
  ⟨rfl, rfl, rfl, rfl⟩

/-- Claim C2, code bug: while the workspace is `verifying` (C-001 submitted),
`selectConflict "C-002"` is not disallowed — it changes the state: it selects
C-002, resets the mode to view and discards the draft, and the verification
finalize that is still pending then marks C-002 RESOLVED although C-002 was
never submitted. -/
theorem selectConflict_during_verifying_bug :
    verifyingState.workspaceMode = WorkspaceMode.verifying ∧
    selectConflict verifyingState "C-002" ≠ verifyingState ∧
    (selectConflict verifyingState "C-002").workspaceMode = WorkspaceMode.view ∧
    (selectConflict verifyingState "C-002").selectedConflictId = some "C-002" ∧
    (selectConflict verifyingState "C-002").resolutionDraft = none ∧
    (((finalizeResolution "2024-05-01T12:00:00Z"
          (selectConflict verifyingState "C-002")).conflicts.find?
        (fun c => decide (c.id = "C-002"))).map Conflict.status)
      = some ResolutionStatus.RESOLVED := by
  decide

/-- Claim C3, counterexample: `finalizeResolution` on the already-RESOLVED
selected conflict C-001 overwrites `resolvedAt` with the new timestamp — a
second finalize does not leave the existing `resolvedAt` unchanged. -/
theorem finalize_restamps_resolvedAt_cex :
    (((finalizeResolution "2024-03-01T10:00:00Z" demoState).conflicts.find?
        (fun c => decide (c.id = "C-001"))).map (fun c => (c.status, c.resolvedAt)))
      = some (ResolutionStatus.RESOLVED, some "2024-03-01T10:00:00Z") ∧
    (((finalizeResolution "2024-03-02T09:00:00Z"
          (finalizeResolution "2024-03-01T10:00:00Z" demoState)).conflicts.find?
        (fun c => decide (c.id = "C-001"))).map Conflict.resolvedAt)
      = some (some "2024-03-02T09:00:00Z") := by
  decide

/-- Claim C3 (amended): `finalizeResolution` stamps status := RESOLVED and
`resolvedAt` := now on every conflict whose id equals the selected id,
regardless of its prior status (so a repeated finalize re-stamps
`resolvedAt`), and is a no-op on the registry when the selected id matches no
conflict. -/
theorem finalize_stamps_selected (s : StoreState) (now : String) :
    (∀ c ∈ s.conflicts, some c.id = s.selectedConflictId →
      { c with status := ResolutionStatus.RESOLVED, resolvedAt := some now } ∈
        (finalizeResolution now s).conflicts) ∧
    ((∀ c ∈ s.conflicts, some c.id ≠ s.selectedConflictId) →
      (finalizeResolution now s).conflicts = s.conflicts) := by
  constructor
  · intro c hc hid
    have hstep := List.mem_map_of_mem
      (fun c' => if some c'.id = s.selectedConflictId then
        { c' with status := ResolutionStatus.RESOLVED, resolvedAt := some now } else c') hc
    simp only [if_pos hid] at hstep
    exact hstep
  · intro hall
    exact map_if_id_of_none hall

/-- Witness for the amended claim C3 at the demo state, where C-001 is
selected. -/
theorem finalize_stamps_selected_witness :
    resolvedMockConflict1 "2024-03-01T10:00:00Z" ∈
      (finalizeResolution "2024-03-01T10:00:00Z" demoState).conflicts :=
  (finalize_stamps_selected demoState "2024-03-01T10:00:00Z").1 mockConflict1
    (by decide) (by decide)

/-- Claim C4, counterexample: after `initManualDraft` on C-003,
`updateManualEdit` with the unknown mention id "zz" stores the edit with
`isDirty` = true — the code marks an unknown mention as changed instead of
treating its text as identical to the original. -/
theorem updateManualEdit_unknown_mention_cex :
    (∀ c ∈ (updateManualEdit manualDraftState "zz" "ghost text" ManualAction.UPDATE).conflicts,
       ∀ m ∈ c.mentions, m.id ≠ "zz") ∧
    ((updateManualEdit manualDraftState "zz" "ghost text" ManualAction.UPDATE).resolutionDraft.map
        (fun d => lookupKey d.edits "zz"))
      = some (some { text := "ghost text", action := ManualAction.UPDATE, isDirty := true }) := by
  decide

/-- Claim C4 (amended): for every draft built by `initManualDraft` on the
selected registry conflict followed by any sequence of manual operations,
each stored ManualEdit's `isDirty` is true iff its text differs from the
mention's original text in the registry when the mention id is found, and is
true (marked changed) when the mention id is not found. -/
theorem edits_isDirty_invariant (s : StoreState) (sel : Conflict) (ops : List MOp)
    (hsel : s.conflicts.find? (fun c => decide (some c.id = s.selectedConflictId)) = some sel)
    (hnd : (sel.mentions.map Mention.id).Nodup)
    (hops : ∀ op ∈ ops, initTargets sel op = true)
    (hcons : editsConsistent s) :
    editsConsistent (ops.foldl applyMOp s) :=
  editsConsistent_foldl ops s sel hsel hnd hops hcons

/-- Witness for the amended claim C4: a manual draft on C-003 with one edit
applied. -/
theorem edits_isDirty_invariant_witness :
    editsConsistent
      ([MOp.init mockConflict3,
        MOp.upd "m6" "Monthly fee: $48,000 per month" ManualAction.UPDATE].foldl applyMOp
        (selectConflict demoState "C-003")) :=
  edits_isDirty_invariant (selectConflict demoState "C-003") mockConflict3
    [MOp.init mockConflict3,
     MOp.upd "m6" "Monthly fee: $48,000 per month" ManualAction.UPDATE]
    (by decide) (by decide) (by decide) (by decide)

/-- Claim C5: starting from the initial store state, after any sequence of
store operations every conflict in the registry has `resolvedAt` present iff
its status is RESOLVED. -/
theorem resolvedAt_iff_resolved (ops : List Op) (c : Conflict)
    (hc : c ∈ (ops.foldl applyOp initialState).conflicts) :
    c.resolvedAt.isSome ↔ c.status = ResolutionStatus.RESOLVED :=
  resolvedAtConsistent_foldl ops initialState (fun _ hc' => by cases hc') c hc

/-- Witness for claim C5: load the mock data and finalize the selected
conflict C-001. -/
theorem resolvedAt_iff_resolved_witness :
    (resolvedMockConflict1 "2024-04-04T08:00:00Z").resolvedAt.isSome
      ↔ (resolvedMockConflict1 "2024-04-04T08:00:00Z").status = ResolutionStatus.RESOLVED :=
  resolvedAt_iff_resolved [Op.loadMockData, Op.finalizeResolution "2024-04-04T08:00:00Z"]
    (resolvedMockConflict1 "2024-04-04T08:00:00Z") (by decide)

/-- Claim C6: `simpleDiff` of identical strings is the "no change" result,
and for distinct strings it is exactly one deletion span holding the entire
original and one insertion span holding the entire revised string. -/
theorem simpleDiff_spec (x y : String) :
    simpleDiff x x = DiffResult.noChange ∧
    (x ≠ y → simpleDiff x y = DiffResult.replaced x y) := by
  constructor
  · simp [simpleDiff]
  · intro h; simp [simpleDiff, h]

/-- Witness for claim C6 on two distinct strings. -/
theorem simpleDiff_spec_witness :
    simpleDiff "alpha" "beta" = DiffResult.replaced "alpha" "beta" :=
  (simpleDiff_spec "alpha" "beta").2 (by decide)

/-- Claim C7: after a resolution, `handleNext` selects the first conflict in
registry iteration order that is OPEN and differs from the just-resolved
conflict; when no such conflict exists it transitions to `all_cleared` and
clears the selected-conflict reference. -/
theorem handleNext_spec (s : StoreState) (cur : Conflict) :
    ((∀ c ∈ s.conflicts, ¬(c.status = ResolutionStatus.OPEN ∧ c.id ≠ cur.id)) →
      handleNext s cur = setAllCleared s ∧
      (setAllCleared s).workspaceMode = WorkspaceMode.all_cleared ∧
      (setAllCleared s).selectedConflictId = none) ∧
    (∀ (l₁ : List Conflict) (nxt : Conflict) (l₂ : List Conflict),
      s.conflicts = l₁ ++ nxt :: l₂ →
      (∀ c ∈ l₁, ¬(c.status = ResolutionStatus.OPEN ∧ c.id ≠ cur.id)) →
      nxt.status = ResolutionStatus.OPEN →
      nxt.id ≠ cur.id →
      handleNext s cur = selectConflict s nxt.id ∧
      (selectConflict s nxt.id).selectedConflictId = some nxt.id ∧
      (selectConflict s nxt.id).workspaceMode = WorkspaceMode.view ∧
      (selectConflict s nxt.id).resolutionDraft = none) := by
  constructor
  · intro hall
    have hnone : nextConflict s.conflicts cur = none :=
      List.find?_eq_none.2 (fun c hc => by simpa using hall c hc)
    unfold handleNext
    rw [hnone]
    exact ⟨rfl, rfl, rfl⟩
  · intro l₁ nxt l₂ heq h1 hopen hne
    have hfind : nextConflict s.conflicts cur = some nxt := by
      unfold nextConflict
      rw [heq]
      exact find?_append_cons _ l₁ l₂ nxt
        (fun x hx => by simpa using h1 x hx) (by simp [hopen, hne])
    unfold handleNext
    rw [hfind]
    exact ⟨rfl, rfl, rfl, rfl⟩

/-- Witness for claim C7: with C-001 just resolved, advancing selects C-002,
the first remaining OPEN conflict. -/
theorem handleNext_spec_witness :
    handleNext (finalizeResolution "2024-04-01T08:00:00Z" demoState)
        (resolvedMockConflict1 "2024-04-01T08:00:00Z")
      = selectConflict (finalizeResolution "2024-04-01T08:00:00Z" demoState) mockConflict2.id ∧
    (selectConflict (finalizeResolution "2024-04-01T08:00:00Z" demoState)
        mockConflict2.id).selectedConflictId = some mockConflict2.id ∧
    (selectConflict (finalizeResolution "2024-04-01T08:00:00Z" demoState)
        mockConflict2.id).workspaceMode = WorkspaceMode.view ∧
    (selectConflict (finalizeResolution "2024-04-01T08:00:00Z" demoState)
        mockConflict2.id).resolutionDraft = none :=
  (handleNext_spec (finalizeResolution "2024-04-01T08:00:00Z" demoState)
      (resolvedMockConflict1 "2024-04-01T08:00:00Z")).2
    [resolvedMockConflict1 "2024-04-01T08:00:00Z"]
    mockConflict2 [mockConflict3] (by decide) (by decide) (by decide) (by decide)

/-- Claim C8, counterexample: `updateManualEdit` stores a 1001-character text
unchanged — no 1000-character bound is enforced on a reachable draft. -/
theorem updateManualEdit_unbounded_cex :
    ((updateManualEdit manualDraftState "m6" longText ManualAction.UPDATE).resolutionDraft.map
        (fun d => (lookupKey d.edits "m6").map (fun e => e.text.length)))
      = some (some 1001) := by
  set_option maxRecDepth 8192 in decide

/-- Claim C8 (amended): `updateManualEdit` stores the provided revised text
and action verbatim, with no length bound. -/
theorem updateManualEdit_stores_verbatim (s : StoreState) (mid text : String) (a : ManualAction)
    (h : s.resolutionDraft.isSome) :
    ((updateManualEdit s mid text a).resolutionDraft.map
        (fun d => (lookupKey d.edits mid).map (fun e => (e.text, e.action))))
      = some (some (text, a)) := by
  rcases Option.isSome_iff_exists.1 h with ⟨d, hd⟩
  simp [updateManualEdit, hd, lookupKey_setKey]

/-- Witness for the amended claim C8. -/
theorem updateManualEdit_stores_verbatim_witness :
    ((updateManualEdit manualDraftState "m6" "Adjusted fee" ManualAction.CLARIFY).resolutionDraft.map
        (fun d => (lookupKey d.edits "m6").map (fun e => (e.text, e.action))))
      = some (some ("Adjusted fee", ManualAction.CLARIFY)) :=
  updateManualEdit_stores_verbatim manualDraftState "m6" "Adjusted fee" ManualAction.CLARIFY
    (by decide)

/-- Claim C9: every store operation other than finalize leaves the registry's
conflict list unchanged, and `finalizeResolution` keeps every conflict whose
id is not the selected one. -/
theorem registry_frame (s : StoreState) :
    (∀ id, (selectConflict s id).conflicts = s.conflicts) ∧
    (startResolution s).conflicts = s.conflicts ∧
    (cancelResolution s).conflicts = s.conflicts ∧
    (goToPreview s).conflicts = s.conflicts ∧
    (returnToEdit s).conflicts = s.conflicts ∧
    (submitResolution s).conflicts = s.conflicts ∧
    (∀ u, (updateDraft s u).conflicts = s.conflicts) ∧
    (∀ mid text a, (updateManualEdit s mid text a).conflicts = s.conflicts) ∧
    (∀ c, (initManualDraft s c).conflicts = s.conflicts) ∧
    (∀ now c, c ∈ s.conflicts → some c.id ≠ s.selectedConflictId →
      c ∈ (finalizeResolution now s).conflicts) := by
  refine ⟨fun id => rfl, ?_, rfl, rfl, rfl, rfl, ?_, ?_, fun c => rfl, ?_⟩
  · cases hs : s.selectedConflictId with
    | none => simp [startResolution, hs]
    | some cid => by_cases hc : cid = "" <;> simp [startResolution, hs, hc]
  · intro u
    cases hd : s.resolutionDraft <;> simp [updateDraft, hd]
  · intro mid text a
    cases hd : s.resolutionDraft <;> simp [updateManualEdit, hd]
  · intro now c hc hne
    have hstep := List.mem_map_of_mem
      (fun c' => if some c'.id = s.selectedConflictId then
        { c' with status := ResolutionStatus.RESOLVED, resolvedAt := some now } else c') hc
    simp only [if_neg hne] at hstep
    exact hstep

/-- Witness for claim C9: finalizing with C-001 selected keeps C-002
untouched. -/
theorem registry_frame_witness :
    mockConflict2 ∈ (finalizeResolution "2024-04-02T08:00:00Z" demoState).conflicts :=
  ((registry_frame demoState).2.2.2.2.2.2.2.2.2) "2024-04-02T08:00:00Z" mockConflict2
    (by decide) (by decide)

/-- Claim C10: when the selected conflict reference is null or matches no
conflict, `finalizeResolution` still sets the workspace mode to resolved
while leaving every conflict unchanged. -/
theorem finalize_unknown_selection (s : StoreState) (now : String)
    (h : s.selectedConflictId = none ∨ ∀ c ∈ s.conflicts, some c.id ≠ s.selectedConflictId) :
    (finalizeResolution now s).workspaceMode = WorkspaceMode.resolved ∧
    (finalizeResolution now s).conflicts = s.conflicts := by
  refine ⟨rfl, ?_⟩
  apply map_if_id_of_none
  intro c hc
  rcases h with hnone | hall
  · rw [hnone]; simp
  · exact hall c hc

/-- Witness for claim C10: a stale selection "C-999" that matches no
conflict. -/
theorem finalize_unknown_selection_witness :
    (finalizeResolution "2024-04-03T08:00:00Z"
        (selectConflict demoState "C-999")).workspaceMode = WorkspaceMode.resolved ∧
    (finalizeResolution "2024-04-03T08:00:00Z"
        (selectConflict demoState "C-999")).conflicts
      = (selectConflict demoState "C-999").conflicts :=
  finalize_unknown_selection (selectConflict demoState "C-999") "2024-04-03T08:00:00Z"
    (Or.inr (by decide))

end ClarityApp
